import Mathlib

/-!
Shallow embedding of the MoDu habit tracker backend (backend part of
src/app.js): the streak/XP/freeze state-transition engine and the REST
operations built on it.

Conventions of the embedding:
* Calendar days are modelled as `Nat` day indices; an empty `lastDone`
  string in the source is `Option.none` here. The day gap
  `Math.floor((today - lastDate) / msPerDay)` is integer subtraction of
  day indices, an `Int`.
* JS numbers that the program treats as integers (`streak`, `xp`,
  `freezes`, `count`) are `Int`.
* The habit object `state.habits` is an association list
  `List (String × Habit)` preserving JS object insertion order, which the
  `for ... in` loops of the source iterate in.
* Each route handler becomes a function `... → GlobalState → GlobalState ×
  Except String resp`: the returned state is what the server persists
  (unchanged on an error response, since the handlers return before
  mutating and never call `saveState` on the error paths).
-/

namespace MoDu

/-- A habit record as stored in `state.habits[short]` by backend.js. -/
structure Habit where
  name : String
  period : String
  count : Option Int
  lastDone : Option Nat
  streak : Int
deriving DecidableEq, Repr

/-- The persisted global state `{ habits, xp, freezes }` of backend.js. -/
structure GlobalState where
  habits : List (String × Habit)
  xp : Int
  freezes : Int
deriving DecidableEq, Repr

/-- Day gap `Math.floor((today - lastDate) / msPerDay)` on calendar-day indices. -/
def dayDiff (today last : Nat) : Int := (today : Int) - (last : Int)

/-- One iteration of the `for (const short in state.habits)` loop body of
`updateStreaks` (src/app.js lines 578-603): given the current freeze count,
produce the updated habit and freeze count. -/
def sweepHabit (today : Nat) (freezes : Int) (h : Habit) : Habit × Int :=
  match h.lastDone with
  | none => (h, freezes)
  | some last =>
    let diff := dayDiff today last
    if diff = 0 then (h, freezes)
    else if diff = 1 then (h, freezes)
    else if diff = 2 then
      if freezes > 0 then (h, freezes - 1) else ({ h with streak := 0 }, freezes)
    else if diff > 2 then ({ h with streak := 0 }, freezes)
    else (h, freezes)

/-- The whole `for` loop of `updateStreaks`, threading the mutable
`state.freezes` through the habits in iteration order. -/
def sweepList (today : Nat) : List (String × Habit) → Int → List (String × Habit) × Int
  | [], freezes => ([], freezes)
  | (k, h) :: rest, freezes =>
    let p := sweepHabit today freezes h
    let q := sweepList today rest p.2
    ((k, p.1) :: q.1, q.2)

/-- The function `updateStreaks(state)` (src/app.js lines 574-604): the settlement
sweep, called by GET /status and GET /habits before responding. -/
def updateStreaks (today : Nat) (s : GlobalState) : GlobalState :=
  let r := sweepList today s.habits s.freezes
  { s with habits := r.1, freezes := r.2 }

/-- XP award `xpGain = 10 + Math.max(0, habit.streak - 1) * 5` (src/app.js line 699),
computed from the streak value after the transition. -/
def xpForCompletion (newStreak : Int) : Int := 10 + max 0 (newStreak - 1) * 5

/-- In-place update of `state.habits[short]`: same keys, same order, only
the entry at `short` gets the new record. -/
def setHabit (habits : List (String × Habit)) (short : String) (h : Habit) :
    List (String × Habit) :=
  habits.map (fun p => if p.1 = short then (p.1, h) else p)

/-- The streak/freeze decision of the PUT /habits/:short/done handler
(src/app.js lines 676-697): `none` means the `diff === 0` early return
(`Already marked done today`); `some (streak, freezes)` is the new streak
for the habit and the new global freeze count. -/
def doneTransition (today : Nat) (freezes : Int) (h : Habit) : Option (Int × Int) :=
  match h.lastDone with
  | some last =>
    let diff := dayDiff today last
    if diff = 0 then none
    else if diff = 1 then some (h.streak + 1, freezes)
    else if diff = 2 then
      if freezes > 0 then some (h.streak + 1, freezes - 1)
      else some (1, freezes)
    else some (1, freezes)
  | none => some (1, freezes)

/-- Response body of a successful PUT /habits/:short/done. -/
structure DoneResp where
  xpGain : Int
  newStreak : Int
  xp : Int
  freezes : Int
deriving DecidableEq, Repr

/-- PUT /habits/:short/done (src/app.js lines 667-703): mark a habit done
today, updating streak, lastDone, freezes and xp. -/
def markDone (today : Nat) (short : String) (s : GlobalState) :
    GlobalState × Except String DoneResp :=
  match s.habits.lookup short with
  | none => (s, .error "Habit not found")
  | some habit =>
    match doneTransition today s.freezes habit with
    | none => (s, .error "Already marked done today")
    | some (st, fr) =>
      let h : Habit := { habit with streak := st, lastDone := some today }
      let gain := xpForCompletion st
      ({ habits := setHabit s.habits short h, xp := s.xp + gain, freezes := fr },
       .ok { xpGain := gain, newStreak := st, xp := s.xp + gain, freezes := fr })

/-- POST /habits (src/app.js lines 646-664): create a new habit with
`streak = 0` and empty `lastDone`. -/
def addHabit (short name period : String) (count : Option Int) (s : GlobalState) :
    GlobalState × Except String Unit :=
  if short = "" ∨ name = "" then (s, .error "Short and name are required")
  else if (s.habits.lookup short).isSome then (s, .error "Habit already exists")
  else
    ({ s with habits := s.habits ++
        [(short, { name := name, period := period,
                   count := if period = "times per week" ∧ count.isSome then count else none,
                   lastDone := none, streak := 0 })] },
     .ok ())

/-- GET /habits/:short (src/app.js lines 639-643): read one habit; no
sweep, no mutation, no save. -/
def getHabit (short : String) (s : GlobalState) : GlobalState × Except String Habit :=
  match s.habits.lookup short with
  | none => (s, .error "Not found")
  | some h => (s, .ok h)

/-- DELETE /habits/:short (src/app.js lines 706-714). -/
def deleteHabit (short : String) (s : GlobalState) : GlobalState × Except String Unit :=
  if (s.habits.lookup short).isSome then
    ({ s with habits := s.habits.filter (fun p => p.1 != short) }, .ok ())
  else (s, .error "Habit not found")

/-- POST /freeze (src/app.js lines 717-725): buy one freeze token for
50 XP. -/
def purchaseFreeze (s : GlobalState) : GlobalState × Except String Unit :=
  if s.xp < 50 then (s, .error "Not enough XP")
  else ({ s with xp := s.xp - 50, freezes := s.freezes + 1 }, .ok ())

/-- An imported habit as it arrives in the POST /import payload: every
field may be missing (`null`/absent in the JSON). -/
structure RawHabit where
  name : Option String
  period : Option String
  count : Option Int
  lastDone : Option Nat
  streak : Option Int
deriving DecidableEq, Repr

/-- The per-habit normalization of the POST /import handler
(src/app.js lines 736-742): default missing fields, copy `streak`
verbatim when present. -/
def normalizeImport (h : RawHabit) : Habit :=
  { name := h.name.getD "", period := h.period.getD "",
    count := h.count, lastDone := h.lastDone, streak := h.streak.getD 0 }

/-- POST /import (src/app.js lines 728-748): replace all habits, reset
`xp` to 0 and `freezes` to 1. -/
def replaceAll (newHabits : List (String × RawHabit)) (s : GlobalState) : GlobalState :=
  let _ := s
  { habits := newHabits.map (fun p => (p.1, normalizeImport p.2)), xp := 0, freezes := 1 }

/-- Does the habit sit exactly two days before `today` (the forgiveness
case of both the sweep and the done transition)? -/
def hasGapTwo (today : Nat) (h : Habit) : Bool :=
  match h.lastDone with
  | some last => dayDiff today last == 2
  | none => false

/-- Data-model invariant of the spec: `streak = 0` whenever
`lastCompletedDay` is absent. -/
def streakInv (s : GlobalState) : Prop :=
  ∀ p ∈ s.habits, p.2.lastDone = none → p.2.streak = 0

instance (s : GlobalState) : Decidable (streakInv s) :=
  inferInstanceAs (Decidable (∀ p ∈ s.habits, _))

/-! ## Helper lemmas -/

theorem lookup_setHabit (l : List (String × Habit)) (short : String) (h h' : Habit)
    (hl : l.lookup short = some h) :
    (setHabit l short h').lookup short = some h' := by
  induction l with
  | nil => simp [List.lookup] at hl
  | cons p rest ih =>
    obtain ⟨k, v⟩ := p
    rw [List.lookup] at hl
    by_cases hk : k = short
    · subst hk
      have hcons : setHabit ((k, v) :: rest) k h' = (k, h') :: setHabit rest k h' := by
        simp [setHabit]
      rw [hcons, List.lookup]
      simp
    · have hb : (short == k) = false := by simp [Ne.symm hk]
      rw [hb] at hl
      simp only [setHabit, List.map_cons, if_neg hk]
      rw [List.lookup, hb]
      exact ih hl

theorem sweepHabit_lastDone (today : Nat) (f : Int) (h : Habit) :
    (sweepHabit today f h).1.lastDone = h.lastDone := by
  cases hd : h.lastDone with
  | none => simp [sweepHabit, hd]
  | some last =>
    simp only [sweepHabit, hd]
    split_ifs <;> first | exact hd | rfl

theorem sweepHabit_streak_or (today : Nat) (f : Int) (h : Habit) :
    (sweepHabit today f h).1.streak = h.streak ∨ (sweepHabit today f h).1.streak = 0 := by
  cases hd : h.lastDone with
  | none => left; simp [sweepHabit, hd]
  | some last =>
    simp only [sweepHabit, hd]
    split_ifs <;> simp

theorem sweepHabit_freezes_le (today : Nat) (f : Int) (h : Habit) :
    (sweepHabit today f h).2 ≤ f := by
  cases hd : h.lastDone with
  | none => simp [sweepHabit, hd]
  | some last =>
    simp only [sweepHabit, hd]
    split_ifs <;> simp

theorem sweepList_frame (today : Nat) (l : List (String × Habit)) :
    ∀ f : Int, (∀ p ∈ l, 0 ≤ p.2.streak) →
      (sweepList today l f).2 ≤ f ∧
      List.Forall₂
        (fun p q => p.1 = q.1 ∧ q.2.lastDone = p.2.lastDone ∧ q.2.streak ≤ p.2.streak)
        l (sweepList today l f).1 := by
  induction l with
  | nil =>
    intro f _
    simp [sweepList]
  | cons q rest ih =>
    intro f hpos
    obtain ⟨k, h⟩ := q
    have hposh : 0 ≤ h.streak := hpos (k, h) (List.mem_cons_self _ _)
    have hposr : ∀ p ∈ rest, 0 ≤ p.2.streak :=
      fun p hp => hpos p (List.mem_cons_of_mem _ hp)
    obtain ⟨ihle, ihfa⟩ := ih (sweepHabit today f h).2 hposr
    constructor
    · exact le_trans ihle (sweepHabit_freezes_le today f h)
    · refine List.Forall₂.cons ⟨rfl, sweepHabit_lastDone today f h, ?_⟩ ihfa
      rcases sweepHabit_streak_or today f h with hst | hst
      · rw [hst]
      · rw [hst]; exact hposh

theorem sweepList_inv (today : Nat) (l : List (String × Habit)) :
    ∀ f : Int, (∀ p ∈ l, p.2.lastDone = none → p.2.streak = 0) →
      ∀ p ∈ (sweepList today l f).1, p.2.lastDone = none → p.2.streak = 0 := by
  induction l with
  | nil =>
    intro f _ p hp
    simp [sweepList] at hp
  | cons q rest ih =>
    intro f hinv p hp
    obtain ⟨k, h⟩ := q
    simp only [sweepList] at hp
    rcases List.mem_cons.mp hp with rfl | hmem
    · intro hnone
      have hld : h.lastDone = none := by
        rw [← sweepHabit_lastDone today f h]; exact hnone
      have h0 : h.streak = 0 := hinv (k, h) (List.mem_cons_self _ _) hld
      show (sweepHabit today f h).1.streak = 0
      rcases sweepHabit_streak_or today f h with hst | hst
      · rw [hst]; exact h0
      · exact hst
    · exact ih (sweepHabit today f h).2
        (fun p hp => hinv p (List.mem_cons_of_mem _ hp)) p hmem

theorem markDone_state_cases (today : Nat) (short : String) (s : GlobalState) :
    (markDone today short s).1 = s ∨
    ∃ habit st fr, s.habits.lookup short = some habit ∧
      (markDone today short s).1 =
        ⟨setHabit s.habits short { habit with streak := st, lastDone := some today },
         s.xp + xpForCompletion st, fr⟩ := by
  cases hll : s.habits.lookup short with
  | none =>
    left
    unfold markDone
    rw [hll]
  | some habit =>
    have hshape :
        markDone today short s =
          (match doneTransition today s.freezes habit with
           | none => ((s, Except.error "Already marked done today") :
               GlobalState × Except String DoneResp)
           | some (st, fr) =>
             ({ habits := setHabit s.habits short { habit with streak := st, lastDone := some today },
                xp := s.xp + xpForCompletion st, freezes := fr },
              Except.ok { xpGain := xpForCompletion st, newStreak := st,
                          xp := s.xp + xpForCompletion st, freezes := fr })) := by
      unfold markDone
      rw [hll]
    rw [hshape]
    cases htr : doneTransition today s.freezes habit with
    | none => exact Or.inl rfl
    | some p =>
      obtain ⟨st, fr⟩ := p
      exact Or.inr ⟨habit, st, fr, rfl, rfl⟩

/-! ## C3: second completion on the same calendar day is rejected -/

/-- C3: if a habit was already completed on the current calendar day
(gap = 0), a second mark-done call fails with the AlreadyDoneToday error
and the whole global state is unchanged (no XP awarded, no token
consumed). -/
theorem markDone_alreadyDone (today : Nat) (short : String) (s : GlobalState)
    (h : Habit) (hl : s.habits.lookup short = some h) (hd : h.lastDone = some today) :
    markDone today short s = (s, Except.error "Already marked done today") := by
  unfold markDone doneTransition
  rw [hl]
  simp [hd, dayDiff]

/-- Witness for C3 at a concrete state. -/
theorem markDone_alreadyDone_witness :
    markDone 2 "h" ⟨[("h", ⟨"H", "daily", none, some 2, 3⟩)], 7, 1⟩ =
      (⟨[("h", ⟨"H", "daily", none, some 2, 3⟩)], 7, 1⟩,
       Except.error "Already marked done today") :=
  markDone_alreadyDone 2 "h" _ ⟨"H", "daily", none, some 2, 3⟩ (by decide) rfl

/-! ## C7: freeze purchase -/

/-- C7: purchasing a freeze token fails with the insufficient-funds error
whenever `xp < 50`, leaving the state unchanged; whenever `xp ≥ 50` it
succeeds, decreasing `xp` by exactly 50 and increasing `freezes` by
exactly 1. -/
theorem purchaseFreeze_spec (s : GlobalState) :
    (s.xp < 50 → purchaseFreeze s = (s, Except.error "Not enough XP")) ∧
    (50 ≤ s.xp →
      purchaseFreeze s =
        ({ s with xp := s.xp - 50, freezes := s.freezes + 1 }, Except.ok ())) := by
  constructor
  · intro hlt
    simp [purchaseFreeze, hlt]
  · intro hge
    rw [purchaseFreeze, if_neg (by omega)]

/-- Witness for C7 at `xp = 49` (fails) and `xp = 50` (succeeds, ending
with `xp = 0` and one more token). -/
theorem purchaseFreeze_spec_witness :
    purchaseFreeze ⟨[], 49, 1⟩ = (⟨[], 49, 1⟩, Except.error "Not enough XP") ∧
    purchaseFreeze ⟨[], 50, 1⟩ = (⟨[], 0, 2⟩, Except.ok ()) :=
  ⟨(purchaseFreeze_spec ⟨[], 49, 1⟩).1 (by decide),
   ((purchaseFreeze_spec ⟨[], 50, 1⟩).2 (by decide)).trans (by norm_num)⟩

/-! ## C8: import replaces all habits and resets the counters -/

/-- C8: for every prior state and every import payload (including the
empty one), importing replaces the habit mapping with the (normalized)
imported one and resets `xp` to 0 and `freezes` to 1 regardless of the
prior values. -/
theorem replaceAll_resets (newHabits : List (String × RawHabit)) (s : GlobalState) :
    (replaceAll newHabits s).habits = newHabits.map (fun p => (p.1, normalizeImport p.2)) ∧
    (replaceAll newHabits s).xp = 0 ∧ (replaceAll newHabits s).freezes = 1 :=
  ⟨rfl, rfl, rfl⟩

/-! ## C4, C5, C6: the mark-done transition -/

theorem markDone_ok_shape (today : Nat) (short : String) (s s' : GlobalState) (r : DoneResp)
    (hmk : markDone today short s = (s', Except.ok r)) :
    ∃ habit st fr, s.habits.lookup short = some habit ∧
      doneTransition today s.freezes habit = some (st, fr) ∧
      s' = ⟨setHabit s.habits short { habit with streak := st, lastDone := some today },
            s.xp + xpForCompletion st, fr⟩ := by
  unfold markDone at hmk
  cases hll : s.habits.lookup short with
  | none =>
    rw [hll] at hmk
    simp at hmk
  | some habit =>
    rw [hll] at hmk
    replace hmk :
        (match doneTransition today s.freezes habit with
         | none => ((s, Except.error "Already marked done today") :
             GlobalState × Except String DoneResp)
         | some (st, fr) =>
           ({ habits := setHabit s.habits short { habit with streak := st, lastDone := some today },
              xp := s.xp + xpForCompletion st, freezes := fr },
            Except.ok { xpGain := xpForCompletion st, newStreak := st,
                        xp := s.xp + xpForCompletion st, freezes := fr })) = (s', Except.ok r) := hmk
    cases htr : doneTransition today s.freezes habit with
    | none =>
      rw [htr] at hmk
      simp at hmk
    | some p =>
      obtain ⟨st, fr⟩ := p
      rw [htr] at hmk
      replace hmk :
          (({ habits := setHabit s.habits short { habit with streak := st, lastDone := some today },
              xp := s.xp + xpForCompletion st, freezes := fr } : GlobalState),
           (Except.ok { xpGain := xpForCompletion st, newStreak := st,
                        xp := s.xp + xpForCompletion st, freezes := fr } :
             Except String DoneResp)) = (s', Except.ok r) := hmk
      injection hmk with hA hB
      exact ⟨habit, st, fr, rfl, htr, hA.symm⟩

/-- C4: at an active completion with gap = 2, if `freezes > 0` then exactly
one token is consumed and the streak increments by 1; if `freezes = 0` then
the streak restarts at 1 and the freeze count is unchanged. -/
theorem markDone_gapTwo (today last : Nat) (short : String) (s : GlobalState) (h : Habit)
    (hl : s.habits.lookup short = some h) (hd : h.lastDone = some last)
    (hg : dayDiff today last = 2) :
    (0 < s.freezes →
      markDone today short s =
        (⟨setHabit s.habits short { h with streak := h.streak + 1, lastDone := some today },
          s.xp + xpForCompletion (h.streak + 1), s.freezes - 1⟩,
         Except.ok ⟨xpForCompletion (h.streak + 1), h.streak + 1,
                    s.xp + xpForCompletion (h.streak + 1), s.freezes - 1⟩)) ∧
    (s.freezes = 0 →
      markDone today short s =
        (⟨setHabit s.habits short { h with streak := 1, lastDone := some today },
          s.xp + xpForCompletion 1, s.freezes⟩,
         Except.ok ⟨xpForCompletion 1, 1, s.xp + xpForCompletion 1, s.freezes⟩)) := by
  constructor
  · intro hf
    unfold markDone doneTransition
    rw [hl]
    simp [hd, hg, hf]
  · intro hf0
    unfold markDone doneTransition
    rw [hl]
    simp [hd, hg, hf0]

/-- Witness for C4 at concrete gap-2 states with one and with zero
tokens. -/
theorem markDone_gapTwo_witness :
    markDone 2 "h" ⟨[("h", ⟨"H", "daily", none, some 0, 3⟩)], 0, 1⟩ =
      (⟨[("h", ⟨"H", "daily", none, some 2, 4⟩)], 25, 0⟩, Except.ok ⟨25, 4, 25, 0⟩) ∧
    markDone 2 "h" ⟨[("h", ⟨"H", "daily", none, some 0, 3⟩)], 0, 0⟩ =
      (⟨[("h", ⟨"H", "daily", none, some 2, 1⟩)], 10, 0⟩, Except.ok ⟨10, 1, 10, 0⟩) :=
  ⟨(markDone_gapTwo 2 0 "h" ⟨[("h", ⟨"H", "daily", none, some 0, 3⟩)], 0, 1⟩
      ⟨"H", "daily", none, some 0, 3⟩ (by decide) rfl (by decide)).1 (by decide),
   (markDone_gapTwo 2 0 "h" ⟨[("h", ⟨"H", "daily", none, some 0, 3⟩)], 0, 0⟩
      ⟨"H", "daily", none, some 0, 3⟩ (by decide) rfl (by decide)).2 (by decide)⟩

/-- C5: at an active completion with gap > 2 the streak restarts at 1,
whatever the freeze count, and no freeze token is consumed. -/
theorem markDone_gapOverTwo (today last : Nat) (short : String) (s : GlobalState) (h : Habit)
    (hl : s.habits.lookup short = some h) (hd : h.lastDone = some last)
    (hg : 2 < dayDiff today last) :
    markDone today short s =
      (⟨setHabit s.habits short { h with streak := 1, lastDone := some today },
        s.xp + xpForCompletion 1, s.freezes⟩,
       Except.ok ⟨xpForCompletion 1, 1, s.xp + xpForCompletion 1, s.freezes⟩) := by
  have h0 : ¬ dayDiff today last = 0 := by omega
  have h1 : ¬ dayDiff today last = 1 := by omega
  have h2 : ¬ dayDiff today last = 2 := by omega
  unfold markDone doneTransition
  rw [hl]
  simp [hd, h0, h1, h2]

/-- Witness for C5 at a concrete gap-3 state with 7 tokens. -/
theorem markDone_gapOverTwo_witness :
    markDone 3 "h" ⟨[("h", ⟨"H", "daily", none, some 0, 5⟩)], 0, 7⟩ =
      (⟨[("h", ⟨"H", "daily", none, some 3, 1⟩)], 10, 7⟩, Except.ok ⟨10, 1, 10, 7⟩) :=
  markDone_gapOverTwo 3 0 "h" ⟨[("h", ⟨"H", "daily", none, some 0, 5⟩)], 0, 7⟩
    ⟨"H", "daily", none, some 0, 5⟩ (by decide) rfl (by decide)

/-- C6: at an active completion with gap = 1 the streak increments by
exactly 1; and every successful completion increases global `xp` by
exactly `10 + max 0 (newStreak - 1) * 5`, where `newStreak` is the streak
stored for the habit after the transition. -/
theorem markDone_gapOne_and_xp (today : Nat) (short : String) (s : GlobalState) :
    (∀ h last, s.habits.lookup short = some h → h.lastDone = some last →
      dayDiff today last = 1 →
      markDone today short s =
        (⟨setHabit s.habits short { h with streak := h.streak + 1, lastDone := some today },
          s.xp + xpForCompletion (h.streak + 1), s.freezes⟩,
         Except.ok ⟨xpForCompletion (h.streak + 1), h.streak + 1,
                    s.xp + xpForCompletion (h.streak + 1), s.freezes⟩)) ∧
    (∀ s' r, markDone today short s = (s', Except.ok r) →
      ∃ h', s'.habits.lookup short = some h' ∧
        s'.xp = s.xp + (10 + max 0 (h'.streak - 1) * 5)) := by
  constructor
  · intro h last hl hd hg
    unfold markDone doneTransition
    rw [hl]
    simp [hd, hg]
  · intro s' r hmk
    obtain ⟨habit, st, fr, hll, htr, hs'⟩ := markDone_ok_shape today short s s' r hmk
    refine ⟨{ habit with streak := st, lastDone := some today }, ?_, ?_⟩
    · rw [hs']
      exact lookup_setHabit s.habits short habit _ hll
    · rw [hs']
      rfl

/-- Witness for C6 at a concrete gap-1 state. -/
theorem markDone_gapOne_and_xp_witness :
    markDone 1 "h" ⟨[("h", ⟨"H", "daily", none, some 0, 2⟩)], 0, 1⟩ =
      (⟨[("h", ⟨"H", "daily", none, some 1, 3⟩)], 20, 1⟩, Except.ok ⟨20, 3, 20, 1⟩) ∧
    (∃ h', ((⟨[("h", ⟨"H", "daily", none, some 1, 3⟩)], 20, 1⟩ : GlobalState)).habits.lookup "h" =
        some h' ∧
      (⟨[("h", ⟨"H", "daily", none, some 1, 3⟩)], 20, 1⟩ : GlobalState).xp =
        (⟨[("h", ⟨"H", "daily", none, some 0, 2⟩)], 0, 1⟩ : GlobalState).xp +
          (10 + max 0 (h'.streak - 1) * 5)) :=
  ⟨(markDone_gapOne_and_xp 1 "h" ⟨[("h", ⟨"H", "daily", none, some 0, 2⟩)], 0, 1⟩).1
      ⟨"H", "daily", none, some 0, 2⟩ 0 (by decide) rfl (by decide),
   (markDone_gapOne_and_xp 1 "h" ⟨[("h", ⟨"H", "daily", none, some 0, 2⟩)], 0, 1⟩).2
      ⟨[("h", ⟨"H", "daily", none, some 1, 3⟩)], 20, 1⟩ ⟨20, 3, 20, 1⟩ (by rfl)⟩

/-! ## C10: reading one habit is pure -/

/-- C10: `getHabit` performs no settlement sweep and no state change: the
server state is returned exactly as it was, and the response is the stored
record (possibly stale) when the short name exists, or the NotFound error
when it does not. -/
theorem getHabit_pure (short : String) (s : GlobalState) :
    getHabit short s =
      (s, match s.habits.lookup short with
          | some h => Except.ok h
          | none => Except.error "Not found") := by
  unfold getHabit
  cases s.habits.lookup short <;> rfl

/-! ## C9: the settlement sweep only decays -/

/-- C9: the settlement sweep leaves `xp` unchanged, leaves every habit in
place with its key and `lastCompletedDay` unchanged, and can only decrease
streaks (for states whose streaks are non-negative, as the data model
requires) and the freeze count. -/
theorem updateStreaks_frame (today : Nat) (s : GlobalState)
    (hpos : ∀ p ∈ s.habits, 0 ≤ p.2.streak) :
    (updateStreaks today s).xp = s.xp ∧
    (updateStreaks today s).freezes ≤ s.freezes ∧
    List.Forall₂
      (fun p q => p.1 = q.1 ∧ q.2.lastDone = p.2.lastDone ∧ q.2.streak ≤ p.2.streak)
      s.habits (updateStreaks today s).habits := by
  obtain ⟨hle, hfa⟩ := sweepList_frame today s.habits s.freezes hpos
  exact ⟨rfl, hle, hfa⟩

/-- Witness for C9 at a concrete state with one gap-2 habit. -/
theorem updateStreaks_frame_witness :
    (updateStreaks 2 ⟨[("h", ⟨"H", "daily", none, some 0, 3⟩)], 5, 1⟩).xp =
      (⟨[("h", ⟨"H", "daily", none, some 0, 3⟩)], 5, 1⟩ : GlobalState).xp ∧
    (updateStreaks 2 ⟨[("h", ⟨"H", "daily", none, some 0, 3⟩)], 5, 1⟩).freezes ≤
      (⟨[("h", ⟨"H", "daily", none, some 0, 3⟩)], 5, 1⟩ : GlobalState).freezes ∧
    List.Forall₂
      (fun p q => p.1 = q.1 ∧ q.2.lastDone = p.2.lastDone ∧ q.2.streak ≤ p.2.streak)
      (⟨[("h", ⟨"H", "daily", none, some 0, 3⟩)], 5, 1⟩ : GlobalState).habits
      (updateStreaks 2 ⟨[("h", ⟨"H", "daily", none, some 0, 3⟩)], 5, 1⟩).habits :=
  updateStreaks_frame 2 ⟨[("h", ⟨"H", "daily", none, some 0, 3⟩)], 5, 1⟩ (by decide)

/-! ## C2: the absent-lastDone invariant -/

/-- Counterexample to C2 as stated: importing a habit whose
`lastCompletedDay` is absent but whose `streak` field is 5 leaves a habit
violating the invariant, because the import endpoint copies the imported
streak verbatim. -/
theorem replaceAll_streakInv_cex :
    ¬ streakInv (replaceAll [("h", ⟨some "x", none, none, none, some 5⟩)] ⟨[], 7, 0⟩) := by
  decide

/-- C2 amended: the invariant `lastCompletedDay` absent → `streak = 0` is
preserved by add, mark done, delete, the settlement sweep and the freeze
purchase (import is excluded: it can violate the invariant). -/
theorem streakInv_preserved (today : Nat) (short name period : String)
    (count : Option Int) (s : GlobalState) (hs : streakInv s) :
    streakInv (addHabit short name period count s).1 ∧
    streakInv (markDone today short s).1 ∧
    streakInv (deleteHabit short s).1 ∧
    streakInv (updateStreaks today s) ∧
    streakInv (purchaseFreeze s).1 := by
  refine ⟨?_, ?_, ?_, ?_, ?_⟩
  · unfold addHabit
    by_cases h1 : short = "" ∨ name = ""
    · rw [if_pos h1]; exact hs
    · rw [if_neg h1]
      by_cases h2 : (s.habits.lookup short).isSome
      · rw [if_pos h2]; exact hs
      · rw [if_neg h2]
        intro p hp
        rcases List.mem_append.mp hp with hmem | hmem
        · exact hs p hmem
        · intro hnone
          simp only [List.mem_singleton] at hmem
          subst hmem
          rfl
  · rcases markDone_state_cases today short s with heq | ⟨habit, st, fr, hll, heq⟩
    · rw [heq]; exact hs
    · rw [heq]
      intro p hp
      rcases List.mem_map.mp hp with ⟨q, hq, rfl⟩
      by_cases hqs : q.1 = short
      · rw [if_pos hqs]
        simp
      · rw [if_neg hqs]
        exact hs q hq
  · unfold deleteHabit
    split_ifs with h1
    · intro p hp
      exact hs p (List.mem_of_mem_filter hp)
    · exact hs
  · intro p hp
    exact sweepList_inv today s.habits s.freezes hs p hp
  · unfold purchaseFreeze
    split_ifs <;> exact hs

/-- Witness for the amended C2 at a concrete state. -/
theorem streakInv_preserved_witness :
    streakInv (addHabit "w" "Water" "daily" none
        ⟨[("h", ⟨"H", "daily", none, some 0, 3⟩)], 60, 1⟩).1 ∧
    streakInv (markDone 2 "w" ⟨[("h", ⟨"H", "daily", none, some 0, 3⟩)], 60, 1⟩).1 ∧
    streakInv (deleteHabit "w" ⟨[("h", ⟨"H", "daily", none, some 0, 3⟩)], 60, 1⟩).1 ∧
    streakInv (updateStreaks 2 ⟨[("h", ⟨"H", "daily", none, some 0, 3⟩)], 60, 1⟩) ∧
    streakInv (purchaseFreeze ⟨[("h", ⟨"H", "daily", none, some 0, 3⟩)], 60, 1⟩).1 :=
  streakInv_preserved 2 "w" "Water" "daily" none
    ⟨[("h", ⟨"H", "daily", none, some 0, 3⟩)], 60, 1⟩ (by decide)

/-! ## C1: idempotence of the settlement sweep -/

theorem updateStreaks_eq (today : Nat) (s : GlobalState) :
    updateStreaks today s =
      { s with habits := (sweepList today s.habits s.freezes).1,
               freezes := (sweepList today s.habits s.freezes).2 } := rfl

theorem sweepHabit_zero (today : Nat) (h : Habit) :
    (sweepHabit today 0 h).2 = 0 ∧
    sweepHabit today 0 (sweepHabit today 0 h).1 = ((sweepHabit today 0 h).1, 0) := by
  cases hd : h.lastDone with
  | none => simp [sweepHabit, hd]
  | some last =>
    by_cases h0 : dayDiff today last = 0
    · simp [sweepHabit, hd, h0]
    by_cases h1 : dayDiff today last = 1
    · simp [sweepHabit, hd, h0, h1]
    by_cases h2 : dayDiff today last = 2
    · simp [sweepHabit, hd, h0, h1, h2]
    by_cases h3 : dayDiff today last > 2
    · simp [sweepHabit, hd, h0, h1, h2, h3]
    · simp [sweepHabit, hd, h0, h1, h2, h3]

theorem sweepList_zero (today : Nat) (l : List (String × Habit)) :
    (sweepList today l 0).2 = 0 ∧
    sweepList today (sweepList today l 0).1 0 = ((sweepList today l 0).1, 0) := by
  induction l with
  | nil => simp [sweepList]
  | cons q rest ih =>
    obtain ⟨k, h⟩ := q
    obtain ⟨hz, hidem⟩ := sweepHabit_zero today h
    obtain ⟨ihz, ihidem⟩ := ih
    constructor <;> simp [sweepList, hz, ihz, hidem, ihidem]

theorem sweepHabit_notwo (today : Nat) (h : Habit) (f f' : Int)
    (hg : hasGapTwo today h = false) :
    (sweepHabit today f h).2 = f ∧
    hasGapTwo today (sweepHabit today f h).1 = false ∧
    sweepHabit today f' (sweepHabit today f h).1 = ((sweepHabit today f h).1, f') := by
  cases hd : h.lastDone with
  | none => simp [sweepHabit, hasGapTwo, hd]
  | some last =>
    have h2 : ¬ dayDiff today last = 2 := by simpa [hasGapTwo, hd] using hg
    by_cases h0 : dayDiff today last = 0
    · simp [sweepHabit, hasGapTwo, hd, h0, h2]
    by_cases h1 : dayDiff today last = 1
    · simp [sweepHabit, hasGapTwo, hd, h0, h1, h2]
    by_cases h3 : dayDiff today last > 2
    · simp [sweepHabit, hasGapTwo, hd, h0, h1, h2, h3]
    · simp [sweepHabit, hasGapTwo, hd, h0, h1, h2, h3]

theorem sweepList_notwo (today : Nat) (l : List (String × Habit)) :
    ∀ f f' : Int, (∀ p ∈ l, hasGapTwo today p.2 = false) →
      (sweepList today l f).2 = f ∧
      sweepList today (sweepList today l f).1 f' = ((sweepList today l f).1, f') := by
  induction l with
  | nil =>
    intro f f' _
    simp [sweepList]
  | cons q rest ih =>
    intro f f' hg
    obtain ⟨k, h⟩ := q
    have hgh : hasGapTwo today h = false := hg (k, h) (List.mem_cons_self _ _)
    have hgr : ∀ p ∈ rest, hasGapTwo today p.2 = false :=
      fun p hp => hg p (List.mem_cons_of_mem _ hp)
    obtain ⟨hf, hg1, hidem⟩ := sweepHabit_notwo today h f f' hgh
    obtain ⟨ihf, ihidem⟩ := ih f f' hgr
    constructor <;> simp [sweepList, hf, hg1, hidem, ihf, ihidem]

/-- Counterexample to C1 as stated: with two freeze tokens and one habit
last completed two days ago, the first sweep consumes one token and the
second sweep consumes another, so running the sweep twice on the same day
differs from running it once. -/
theorem updateStreaks_not_idempotent :
    updateStreaks 2 (updateStreaks 2 ⟨[("h", ⟨"H", "daily", none, some 0, 3⟩)], 0, 2⟩) ≠
      updateStreaks 2 ⟨[("h", ⟨"H", "daily", none, some 0, 3⟩)], 0, 2⟩ := by
  decide

/-- C1 amended: the settlement sweep is idempotent on an observation day
provided the freeze count is 0 or no habit has a day gap of exactly 2;
otherwise each run consumes one further token per gap-2 habit, because the
sweep records nothing about having already settled the day. -/
theorem updateStreaks_idem (today : Nat) (s : GlobalState)
    (hcond : s.freezes = 0 ∨ ∀ p ∈ s.habits, hasGapTwo today p.2 = false) :
    updateStreaks today (updateStreaks today s) = updateStreaks today s := by
  rcases hcond with hz | hg
  · obtain ⟨h2, hidem⟩ := sweepList_zero today s.habits
    simp only [updateStreaks_eq, hz]
    simp [h2, hidem]
  · obtain ⟨hf, hidem⟩ :=
      sweepList_notwo today s.habits s.freezes ((sweepList today s.habits s.freezes).2) hg
    simp only [updateStreaks_eq]
    simp [hidem]

/-- Witness for the amended C1 at a concrete zero-token state with a gap-2
habit. -/
theorem updateStreaks_idem_witness :
    updateStreaks 2 (updateStreaks 2 ⟨[("h", ⟨"H", "daily", none, some 0, 3⟩)], 0, 0⟩) =
      updateStreaks 2 ⟨[("h", ⟨"H", "daily", none, some 0, 3⟩)], 0, 0⟩ :=
  updateStreaks_idem 2 ⟨[("h", ⟨"H", "daily", none, some 0, 3⟩)], 0, 0⟩ (Or.inl rfl)

end MoDu
